import Mathlib

/-!
Verification of the slip-parsing OCR server's response-extraction and
normalization pipeline.

The development shallowly embeds the JavaScript source: JS numbers are
modelled as exact rationals (ℚ), JS strings as `List Char`/`String`,
JSON values as the inductive `Json`, and fallible operations return
`Option`/`Except`.  The HTTP handler is modelled as a pure function of
the request body, a pair of clock readings, and the outcome of the
external model call.
-/

namespace OcrServer

/-- A JSON value as produced by `JSON.parse`: numbers are kept as exact
rationals, objects as ordered key/value lists (duplicate keys are kept
and property lookup takes the last occurrence, matching JS semantics). -/
inductive Json where
  | null
  | bool (b : Bool)
  | num (q : ℚ)
  | str (s : String)
  | arr (xs : List Json)
  | obj (kvs : List (String × Json))

/-- JavaScript truthiness of a JSON value: `null`, `false`, `0` and the
empty string are falsy; every other JSON value is truthy. -/
def truthy : Json → Bool
  | .null => false
  | .bool b => b
  | .num q => decide (q ≠ 0)
  | .str s => decide (s ≠ "")
  | .arr _ => true
  | .obj _ => true

/-- Truthiness of a possibly-absent property (`undefined` is falsy). -/
def truthyOpt : Option Json → Bool
  | none => false
  | some v => truthy v

/-- Lookup in an ordered key/value list taking the LAST binding of the
key, the value JS property access sees after `JSON.parse` of an object
with duplicate keys. -/
def lookupLast (k : String) : List (String × Json) → Option Json
  | [] => none
  | (k', v) :: rest =>
    match lookupLast k rest with
    | some v' => some v'
    | none => if k' = k then some v else none

/-- JS property access `parsed.k` on a JSON value: `undefined` (`none`)
on anything that is not an object carrying the key. -/
def jget (j : Json) (k : String) : Option Json :=
  match j with
  | .obj kvs => lookupLast k kvs
  | _ => none

/-- The JS expression `v || null`: the value itself when truthy,
otherwise `null`. -/
def jsOrNull : Option Json → Json
  | none => Json.null
  | some v => if truthy v then v else Json.null

/-! ### String utilities: `String.prototype.replace(/pat/g, "")`,
`String.prototype.trim` -/

/-- Whether `pat` is a prefix of `s` (`List.isPrefixOf` with the cases
split on the pattern first). -/
def isPre : List Char → List Char → Bool
  | [], _ => true
  | _ :: _, [] => false
  | a :: as, b :: bs => (a = b) && isPre as bs

/-- Fuel-indexed scan for `removeAll`: each step consumes at least one
character, so fuel `s.length + 1` is never exhausted. -/
def removeAllFuel (pat : List Char) : Nat → List Char → List Char
  | 0, s => s
  | _ + 1, [] => []
  | fuel + 1, c :: rest =>
    if pat ≠ [] ∧ isPre pat (c :: rest) then
      removeAllFuel pat fuel ((c :: rest).drop pat.length)
    else
      c :: removeAllFuel pat fuel rest

/-- `s.replace(pat_as_literal_regex_with_g_flag, "")`: delete every
non-overlapping occurrence of `pat`, scanning left to right. -/
def removeAll (pat : List Char) (s : List Char) : List Char :=
  removeAllFuel pat (s.length + 1) s

/-- The character class JavaScript `String.prototype.trim` strips:
WhiteSpace and LineTerminator code points. -/
def isJsWhitespace (c : Char) : Bool :=
  c.val = 0x09 || c.val = 0x0a || c.val = 0x0b || c.val = 0x0c ||
  c.val = 0x0d || c.val = 0x20 || c.val = 0xa0 || c.val = 0x1680 ||
  (0x2000 ≤ c.val && c.val ≤ 0x200a) || c.val = 0x2028 || c.val = 0x2029 ||
  c.val = 0x202f || c.val = 0x205f || c.val = 0x3000 || c.val = 0xfeff

/-- JavaScript `s.trim()`. -/
def jsTrim (s : List Char) : List Char :=
  ((s.dropWhile isJsWhitespace).reverse.dropWhile isJsWhitespace).reverse

/-- The cleaning step of `extractJSON` (and of the inline extraction in
`server.js`): `raw.replace(/```json/g, "").replace(/```/g, "").trim()`. -/
def cleanText (raw : String) : List Char :=
  jsTrim (removeAll "```".toList (removeAll "```json".toList raw.toList))

/-! ### The regex match `cleaned.match(/\{[\s\S]*\}/)` -/

/-- Index of the first occurrence of a character. -/
def firstIdx (c : Char) : List Char → Option Nat
  | [] => none
  | a :: rest => if a = c then some 0 else (firstIdx c rest).map (· + 1)

/-- Index of the last occurrence of a character. -/
def lastIdx (c : Char) : List Char → Option Nat
  | [] => none
  | a :: rest =>
    match lastIdx c rest with
    | some j => some (j + 1)
    | none => if a = c then some 0 else none

/-- The regex engine on `/\{[\s\S]*\}/` (no `g` flag): try each start
position left to right; at a `{`, the greedy `[\s\S]*` backtracks to the
last `}` of the remainder; if the remainder has no `}`, the engine moves
to the next start position.  Returns the matched substring (`match[0]`). -/
def regexMatchBraces : List Char → Option (List Char)
  | [] => none
  | c :: rest =>
    if c = '{' then
      match lastIdx '}' rest with
      | some j => some ('{' :: rest.take (j + 1))
      | none => regexMatchBraces rest
    else regexMatchBraces rest

/-- Modelled from the spec: "Find the first substring that begins at the
first `{` character and ends at the last `}` character in the cleaned
text (a greedy outer-brace match, not a balanced-brace parse)". -/
def specMatchBraces (s : List Char) : Option (List Char) :=
  match firstIdx '{' s, lastIdx '}' s with
  | some i, some j => if i < j then some ((s.drop i).take (j - i + 1)) else none
  | _, _ => none

/-! ### `JSON.parse`: a recursive-descent parser for the JSON grammar.
Fuel-indexed to make termination evident; `parseJsonChars` supplies
ample fuel.  Numbers are parsed to exact rationals. -/

/-- JSON insignificant whitespace (space, tab, line feed, carriage return). -/
def skipWs (s : List Char) : List Char :=
  s.dropWhile fun c => c = ' ' || c = '\t' || c = '\n' || c = '\r'

/-- Value of a hexadecimal digit. -/
def hexVal (c : Char) : Option Nat :=
  if '0' ≤ c ∧ c ≤ '9' then some (c.toNat - '0'.toNat)
  else if 'a' ≤ c ∧ c ≤ 'f' then some (c.toNat - 'a'.toNat + 10)
  else if 'A' ≤ c ∧ c ≤ 'F' then some (c.toNat - 'A'.toNat + 10)
  else none

/-- Body of a JSON string after the opening quote: returns the decoded
characters and the input after the closing quote.  Escapes follow the
JSON grammar; unescaped control characters are rejected. -/
def parseStringBody : Nat → List Char → Option (List Char × List Char)
  | 0, _ => none
  | _, [] => none
  | fuel + 1, c :: rest =>
    if c = '"' then some ([], rest)
    else if c = '\\' then
      match rest with
      | [] => none
      | e :: rest2 =>
        if e = '"' ∨ e = '\\' ∨ e = '/' then
          (parseStringBody fuel rest2).map fun p => (e :: p.1, p.2)
        else if e = 'b' then
          (parseStringBody fuel rest2).map fun p => (Char.ofNat 0x08 :: p.1, p.2)
        else if e = 'f' then
          (parseStringBody fuel rest2).map fun p => (Char.ofNat 0x0c :: p.1, p.2)
        else if e = 'n' then
          (parseStringBody fuel rest2).map fun p => ('\n' :: p.1, p.2)
        else if e = 'r' then
          (parseStringBody fuel rest2).map fun p => ('\r' :: p.1, p.2)
        else if e = 't' then
          (parseStringBody fuel rest2).map fun p => ('\t' :: p.1, p.2)
        else if e = 'u' then
          match rest2 with
          | h1 :: h2 :: h3 :: h4 :: rest3 =>
            match hexVal h1, hexVal h2, hexVal h3, hexVal h4 with
            | some a, some b, some c3, some d =>
              (parseStringBody fuel rest3).map fun p =>
                (Char.ofNat (a * 4096 + b * 256 + c3 * 16 + d) :: p.1, p.2)
            | _, _, _, _ => none
          | _ => none
        else none
    else if c.toNat < 0x20 then none
    else (parseStringBody fuel rest).map fun p => (c :: p.1, p.2)

/-- Decimal value of a digit run. -/
def digitsToNat (ds : List Char) : Nat :=
  ds.foldl (fun acc c => acc * 10 + (c.toNat - '0'.toNat)) 0

/-- Optional exponent part of a JSON number, applied to the signed
mantissa. -/
def parseExpPart (mant : ℚ) (s : List Char) : Option (ℚ × List Char) :=
  match s with
  | e :: r =>
    if e = 'e' ∨ e = 'E' then
      let sr : ℤ × List Char :=
        match r with
        | '+' :: rr => (1, rr)
        | '-' :: rr => (-1, rr)
        | _ => (1, r)
      let ed := sr.2.takeWhile Char.isDigit
      if ed = [] then none
      else some (mant * (10 : ℚ) ^ (sr.1 * (digitsToNat ed : ℤ)), sr.2.drop ed.length)
    else some (mant, s)
  | [] => some (mant, [])

/-- A JSON number: `-? (0 | [1-9][0-9]*) (. [0-9]+)? ([eE][+-]?[0-9]+)?`,
evaluated exactly in ℚ. -/
def parseNumber (s : List Char) : Option (ℚ × List Char) :=
  let sp : Bool × List Char := match s with | '-' :: r => (true, r) | _ => (false, s)
  let s1 := sp.2
  let ids := s1.takeWhile Char.isDigit
  if ids = [] then none
  else if ids.length > 1 ∧ ids.head? = some '0' then none
  else
    let s2 := s1.drop ids.length
    let iv : ℚ := (digitsToNat ids : ℚ)
    let withFrac : Option (ℚ × List Char) :=
      match s2 with
      | '.' :: r2 =>
        let fd := r2.takeWhile Char.isDigit
        if fd = [] then none
        else some (iv + (digitsToNat fd : ℚ) / (10 : ℚ) ^ fd.length, r2.drop fd.length)
      | _ => some (iv, s2)
    match withFrac with
    | none => none
    | some (m, s3) => parseExpPart (if sp.1 then -m else m) s3

mutual

/-- A JSON value, after leading whitespace. -/
def parseValue : Nat → List Char → Option (Json × List Char)
  | 0, _ => none
  | fuel + 1, s =>
    match skipWs s with
    | [] => none
    | c :: rest =>
      if c = '"' then
        (parseStringBody (rest.length + 1) rest).map fun p => (.str (String.mk p.1), p.2)
      else if c = '{' then parseObjRest fuel rest
      else if c = '[' then parseArrRest fuel rest
      else if c = 't' then
        if isPre "rue".toList rest then some (.bool true, rest.drop 3) else none
      else if c = 'f' then
        if isPre "alse".toList rest then some (.bool false, rest.drop 4) else none
      else if c = 'n' then
        if isPre "ull".toList rest then some (.null, rest.drop 3) else none
      else
        (parseNumber (c :: rest)).map fun p => (.num p.1, p.2)

/-- The inside of a JSON object, after the opening `{`. -/
def parseObjRest : Nat → List Char → Option (Json × List Char)
  | 0, _ => none
  | fuel + 1, s =>
    match skipWs s with
    | '}' :: rest => some (.obj [], rest)
    | other => (parseMembers fuel other).map fun p => (.obj p.1, p.2)

/-- One or more `"key": value` members separated by commas, ending at `}`. -/
def parseMembers : Nat → List Char → Option (List (String × Json) × List Char)
  | 0, _ => none
  | fuel + 1, s =>
    match skipWs s with
    | '"' :: rest =>
      match parseStringBody (rest.length + 1) rest with
      | none => none
      | some (key, r1) =>
        match skipWs r1 with
        | ':' :: r2 =>
          match parseValue fuel r2 with
          | none => none
          | some (v, r3) =>
            match skipWs r3 with
            | ',' :: r4 =>
              (parseMembers fuel r4).map fun p => ((String.mk key, v) :: p.1, p.2)
            | '}' :: r4 => some ([(String.mk key, v)], r4)
            | _ => none
        | _ => none
    | _ => none

/-- The inside of a JSON array, after the opening `[`. -/
def parseArrRest : Nat → List Char → Option (Json × List Char)
  | 0, _ => none
  | fuel + 1, s =>
    match skipWs s with
    | ']' :: rest => some (.arr [], rest)
    | other => (parseElems fuel other).map fun p => (.arr p.1, p.2)

/-- One or more array elements separated by commas, ending at `]`. -/
def parseElems : Nat → List Char → Option (List Json × List Char)
  | 0, _ => none
  | fuel + 1, s =>
    match parseValue fuel s with
    | none => none
    | some (v, r1) =>
      match skipWs r1 with
      | ',' :: r2 => (parseElems fuel r2).map fun p => (v :: p.1, p.2)
      | ']' :: r2 => some ([v], r2)
      | _ => none

end

/-- `JSON.parse(text)`: one JSON value surrounded by optional
whitespace; anything else after it is a syntax error. -/
def parseJsonChars (s : List Char) : Option Json :=
  match parseValue (2 * s.length + 8) s with
  | some (v, rest) => if skipWs rest = [] then some v else none
  | none => none

/-! ### `extractJSON` and the spec's reference extraction algorithm -/

/-- The two failure modes of extraction: the regex found no object
(`throw new Error("No JSON object found in AI response")`), or
`JSON.parse` threw on the matched substring. -/
inductive ExtractErr where
  | noJsonFound
  | invalidJson

/-- The thrown error's message, as the source spells it. -/
def extractErrMessage : ExtractErr → String
  | .noJsonFound => "No JSON object found in AI response"
  | .invalidJson => "invalid JSON"

/-- `extractJSON(raw)` from the source: strip ```` ```json ```` and
```` ``` ```` markers everywhere, trim, match `/\{[\s\S]*\}/`, throw if
there is no match, and `JSON.parse` the matched substring. -/
def extractJSON (raw : String) : Except ExtractErr Json :=
  match regexMatchBraces (cleanText raw) with
  | none => .error .noJsonFound
  | some m =>
    match parseJsonChars m with
    | some v => .ok v
    | none => .error .invalidJson

/-- The spec's reference algorithm (§4.3): remove every fence marker
occurrence, trim, take the substring from the first `{` to the last `}`
of the cleaned text (greedy outer-brace match), fail when no such
substring exists, and JSON-parse it. -/
def referenceExtract (raw : String) : Except ExtractErr Json :=
  match specMatchBraces (cleanText raw) with
  | none => .error .noJsonFound
  | some m =>
    match parseJsonChars m with
    | some v => .ok v
    | none => .error .invalidJson

/-! ### Result normalization -/

/-- `deriveStatus(parsed)` from the source. -/
def deriveStatus (parsed : Json) : String :=
  let hasTransaction := truthyOpt (jget parsed "transactionId")
  let hasAccount := truthyOpt (jget parsed "toAccountNumber")
  if hasTransaction && hasAccount then "complete"
  else if hasTransaction || hasAccount then "partial"
  else "empty"

/-- The confidence normalization at the success path:
`typeof parsed.confidenceScore === "number" ? Math.min(100, Math.max(0,
parsed.confidenceScore)) : null`. -/
def normalizeConfidence (parsed : Json) : Option ℚ :=
  match jget parsed "confidenceScore" with
  | some (.num q) => some (min 100 (max 0 q))
  | _ => none

/-! ### Cost and image-size telemetry -/

/-- `Number.prototype.toFixed(6)` followed by `parseFloat`, on exact
rationals: round to 6 decimal places, ties toward the larger value. -/
def jsToFixed6 (q : ℚ) : ℚ :=
  ((⌊q * 1000000 + 1 / 2⌋ : ℤ) : ℚ) / 1000000

/-- Per-1k-token input rate from the source configuration. -/
def COST_PER_1K_INPUT_TOKENS : ℚ := 0.00015

/-- Per-1k-token output rate from the source configuration. -/
def COST_PER_1K_OUTPUT_TOKENS : ℚ := 0.0006

/-- `calcTokenCost(inputTokens, outputTokens)` from the source. -/
def calcTokenCost (inputTokens outputTokens : ℚ) : ℚ :=
  let inputCost := (inputTokens / 1000) * COST_PER_1K_INPUT_TOKENS
  let outputCost := (outputTokens / 1000) * COST_PER_1K_OUTPUT_TOKENS
  jsToFixed6 (inputCost + outputCost)

/-- JS `\w`: ASCII letters, digits and underscore. -/
def isWordChar (c : Char) : Bool :=
  c.isAlphanum || c = '_'

/-- `base64String.replace(/^data:image\/\w+;base64,/, "")`: strip a
data-URI prefix when the anchored regex matches, else leave the string
unchanged. -/
def stripDataUri (s : List Char) : List Char :=
  if isPre "data:image/".toList s then
    let rest := s.drop 11
    let w := rest.takeWhile isWordChar
    let rest2 := rest.drop w.length
    if w ≠ [] ∧ isPre ";base64,".toList rest2 then rest2.drop 8
    else s
  else s

/-- JS `Math.round`: nearest integer, ties toward positive infinity. -/
def jsRound (q : ℚ) : ℤ :=
  ⌊q + 1 / 2⌋

/-- `estimateImageSizeKB(base64String)` from the source. -/
def estimateImageSizeKB (base64String : String) : ℤ :=
  jsRound ((((stripDataUri base64String.toList).length : ℚ) * 3) / 4 / 1024)

/-! ### The POST /parse-slip handler of the main server
(`src/unnamed/part_000`).  The handler is embedded as a pure function
of the request body (the JSON object express parsed), two clock
readings (`procMs` for `Date.now() - startTime` at the moment the
response is assembled, `aiMs` for the model-call duration) and the
outcome of the external model call. -/

/-- The outcome of `openai.responses.create`: an unhandled invocation
failure, or the reply's `output_text` with its token usage counters. -/
inductive ModelOutcome where
  | failure
  | reply (outputText : String) (inputTokens outputTokens : Nat)

/-- An HTTP response: status code and JSON body. -/
structure HttpResponse where
  status : Nat
  body : Json

/-- The 400 body of the missing-image early return. -/
def missingImageResp (requestId : String) (procMs : Nat) : HttpResponse :=
  ⟨400, .obj [
    ("requestId", .str requestId),
    ("status", .str "error"),
    ("error", .str "Missing image"),
    ("processTimeMs", .num procMs)]⟩

/-- The 500 body of the catch-all handler (`"OCR processing failed"`). -/
def ocrFailedResp (requestId : String) (procMs : Nat) : HttpResponse :=
  ⟨500, .obj [
    ("requestId", .str requestId),
    ("status", .str "error"),
    ("error", .str "OCR processing failed"),
    ("processTimeMs", .num procMs)]⟩

/-- The 500 body returned when `extractJSON` throws. -/
def invalidFormatResp (requestId : String) (procMs : Nat) : HttpResponse :=
  ⟨500, .obj [
    ("requestId", .str requestId),
    ("status", .str "error"),
    ("error", .str "Invalid AI response format"),
    ("processTimeMs", .num procMs)]⟩

/-- The `data` sub-object of the success response. -/
def dataJson (parsed : Json) : Json :=
  .obj [
    ("transactionId", jsOrNull (jget parsed "transactionId")),
    ("toAccountNumber", jsOrNull (jget parsed "toAccountNumber")),
    ("rawText", jsOrNull (jget parsed "rawText"))]

/-- The `aiScore` field of the success response. -/
def aiScoreJson (parsed : Json) : Json :=
  match normalizeConfidence parsed with
  | some q => .num q
  | none => .null

/-- The 200 success response body. -/
def successResp (requestId : String) (parsed : Json) (procMs aiMs : Nat)
    (imageSizeKB : ℤ) (inputTokens outputTokens : Nat) : HttpResponse :=
  ⟨200, .obj [
    ("requestId", .str requestId),
    ("status", .str (deriveStatus parsed)),
    ("data", dataJson parsed),
    ("aiScore", aiScoreJson parsed),
    ("meta", .obj [
      ("processTimeMs", .num procMs),
      ("aiTimeMs", .num aiMs),
      ("imageSizeKB", .num imageSizeKB),
      ("model", .str "gpt-4.1-mini"),
      ("tokens", .obj [
        ("input", .num inputTokens),
        ("output", .num outputTokens),
        ("total", .num (inputTokens + outputTokens)),
        ("estimatedCostUSD", .num (calcTokenCost inputTokens outputTokens))])])]⟩

/-- What the handler decides before the model call: the falsy
`base64Image` early return, a thrown `TypeError` when a truthy
non-string reaches `estimateImageSizeKB` (`.replace` is not a
function), or proceeding to the model call with the image. -/
inductive Phase1 where
  | missingImage
  | thrown
  | proceed (img : String) (imageSizeKB : ℤ)

/-- Lines 116–129 of the main server: destructure `base64Image`, return
400 when it is falsy, otherwise compute the image-size estimate. -/
def parseSlipPhase1 (reqBody : List (String × Json)) : Phase1 :=
  match lookupLast "base64Image" reqBody with
  | none => .missingImage
  | some v =>
    if truthy v then
      match v with
      | .str img => .proceed img (estimateImageSizeKB img)
      | _ => .thrown
    else .missingImage

/-- Whether the handler reaches the external model call. -/
def modelInvoked (reqBody : List (String × Json)) : Bool :=
  match parseSlipPhase1 reqBody with
  | .proceed _ _ => true
  | _ => false

/-- The POST /parse-slip handler of the main server. -/
def handleParseSlip (requestId : String) (reqBody : List (String × Json))
    (procMs aiMs : Nat) (outcome : ModelOutcome) : HttpResponse :=
  match parseSlipPhase1 reqBody with
  | .missingImage => missingImageResp requestId procMs
  | .thrown => ocrFailedResp requestId procMs
  | .proceed _ imageSizeKB =>
    match outcome with
    | .failure => ocrFailedResp requestId procMs
    | .reply out inTok outTok =>
      match extractJSON out with
      | .error _ => invalidFormatResp requestId procMs
      | .ok parsed => successResp requestId parsed procMs aiMs imageSizeKB inTok outTok

/-- The POST /parse-slip handler of the secondary server
(`src/server.js`): same extraction pipeline, but its error responses
carry only an `error` message, and its success body is flat. -/
def handleParseSlipLegacy (reqBody : List (String × Json))
    (outcome : ModelOutcome) : HttpResponse :=
  match lookupLast "base64Image" reqBody with
  | none => ⟨400, .obj [("error", .str "Missing image")]⟩
  | some v =>
    if truthy v then
      match outcome with
      | .failure => ⟨500, .obj [("error", .str "OCR processing failed")]⟩
      | .reply out _ _ =>
        match regexMatchBraces (cleanText out) with
        | none => ⟨500, .obj [("error", .str "Invalid AI response")]⟩
        | some m =>
          match parseJsonChars m with
          | none => ⟨500, .obj [("error", .str "OCR processing failed")]⟩
          | some parsed =>
            ⟨200, .obj [
              ("transactionId", jsOrNull (jget parsed "transactionId")),
              ("toAccountNumber", jsOrNull (jget parsed "toAccountNumber")),
              ("text", jsOrNull (jget parsed "rawText"))]⟩
    else ⟨400, .obj [("error", .str "Missing image")]⟩

/-! ### Lemmas -/

/-- The backtracking regex engine on `/\{[\s\S]*\}/` computes exactly
the first-`{`-to-last-`}` substring. -/
theorem regexMatchBraces_eq_spec (s : List Char) :
    regexMatchBraces s = specMatchBraces s := by
  induction s with
  | nil => rfl
  | cons c rest ih =>
    by_cases hc : c = '{'
    · subst hc
      cases hj : lastIdx '}' rest with
      | some j =>
        simp only [regexMatchBraces, if_pos rfl, hj, specMatchBraces, firstIdx,
          if_pos rfl, lastIdx]
        simp [List.take_succ_cons]
      | none =>
        simp only [regexMatchBraces, if_pos rfl, hj, ih, specMatchBraces, lastIdx,
          firstIdx, if_pos rfl]
        have : ('{' : Char) ≠ '}' := by decide
        simp only [if_neg this]
        cases h1 : firstIdx '{' rest <;> simp
    · cases h1 : firstIdx '{' rest with
      | none =>
        simp only [regexMatchBraces, if_neg hc, ih, specMatchBraces, firstIdx,
          if_neg hc, h1, Option.map_none']
      | some i =>
        cases h2 : lastIdx '}' rest with
        | some j =>
          simp only [regexMatchBraces, if_neg hc, ih, specMatchBraces, firstIdx,
            if_neg hc, h1, Option.map_some', lastIdx, h2]
          by_cases hij : i < j
          · simp only [if_pos hij, if_pos (Nat.succ_lt_succ hij)]
            simp [Nat.succ_sub_succ]
          · simp [if_neg hij, fun h => hij (Nat.lt_of_succ_lt_succ h)]
        | none =>
          by_cases hcr : c = '}'
          · subst hcr
            simp only [regexMatchBraces, if_neg hc, ih, specMatchBraces, firstIdx,
              if_neg hc, h1, Option.map_some', lastIdx, h2, if_pos rfl]
            simp
          · simp only [regexMatchBraces, if_neg hc, ih, specMatchBraces, firstIdx,
              if_neg hc, h1, Option.map_some', lastIdx, h2, if_neg hcr]

/-- A found first index points at the character. -/
theorem firstIdx_getElem {c : Char} {s : List Char} {i : Nat}
    (h : firstIdx c s = some i) : s[i]? = some c := by
  induction s generalizing i with
  | nil => simp [firstIdx] at h
  | cons a rest ih =>
    by_cases ha : a = c
    · simp only [firstIdx, if_pos ha] at h
      cases h
      simpa using ha
    · simp only [firstIdx, if_neg ha] at h
      cases hr : firstIdx c rest with
      | none => simp [hr] at h
      | some i' =>
        simp only [hr, Option.map_some'] at h
        cases h
        simpa using ih hr

/-- A found last index points at the character. -/
theorem lastIdx_getElem {c : Char} {s : List Char} {i : Nat}
    (h : lastIdx c s = some i) : s[i]? = some c := by
  induction s generalizing i with
  | nil => simp [lastIdx] at h
  | cons a rest ih =>
    cases hr : lastIdx c rest with
    | some j =>
      simp only [lastIdx, hr] at h
      cases h
      simpa using ih hr
    | none =>
      simp only [lastIdx, hr] at h
      by_cases ha : a = c
      · simp only [if_pos ha] at h
        cases h
        simpa using ha
      · simp [if_neg ha] at h

/-- An index found by a lookup is in range. -/
theorem getElem?_lt_length {s : List Char} {i : Nat} {c : Char}
    (h : s[i]? = some c) : i < s.length := by
  by_contra hge
  rw [List.getElem?_eq_none (Nat.le_of_not_lt hge)] at h
  cases h

/-- Removing every binding of a key makes its lookup miss. -/
theorem lookupLast_filter_self (k : String) (l : List (String × Json)) :
    lookupLast k (l.filter fun kv => kv.1 != k) = none := by
  induction l with
  | nil => rfl
  | cons kv rest ih =>
    by_cases hk : kv.1 = k
    · simp [List.filter_cons, hk, ih]
    · have : (kv.1 != k) = true := by simpa using hk
      cases kv with
      | mk k' v =>
        simp only at this
        simp [List.filter_cons, this, lookupLast, ih]
        simpa using hk

/-! ### The claims -/

/-- Claim C1: for every raw model reply string, `extractJSON` equals the
spec's reference algorithm — remove every ```` ```json ```` and ```` ``` ````
fence occurrence anywhere in the text, trim, take the substring from the
first `{` to the last `}` of the cleaned text (greedy outer-brace match,
not balanced-brace parsing), and JSON-parse it; in particular prose
before the first `{` or after the last `}` does not prevent extraction. -/
theorem extractJSON_eq_referenceExtract :
    (∀ raw : String, extractJSON raw = referenceExtract raw) ∧
    extractJSON "Sure! \x7b\"transactionId\":\"T1\",\"toAccountNumber\":\"A1\"\x7d Thanks" =
      .ok (.obj [("transactionId", .str "T1"), ("toAccountNumber", .str "A1")]) := by
  constructor
  · intro raw
    unfold extractJSON referenceExtract
    rw [regexMatchBraces_eq_spec]
  · rfl

/-- Claim C2: when the cleaned reply has no substring starting at a `{`
and ending at a later `}` (in particular when it has no `{` at all),
extraction fails with the distinct no-JSON-object error rather than
returning a parsed object. -/
theorem extractJSON_noJsonFound (raw : String)
    (h : ∀ i, i < (cleanText raw).length → ∀ j, j < (cleanText raw).length →
      i < j → ¬((cleanText raw)[i]? = some '{' ∧ (cleanText raw)[j]? = some '}')) :
    extractJSON raw = .error .noJsonFound := by
  suffices hs : specMatchBraces (cleanText raw) = none by
    unfold extractJSON
    rw [regexMatchBraces_eq_spec, hs]
  cases h1 : firstIdx '{' (cleanText raw) with
  | none => simp [specMatchBraces, h1]
  | some i =>
    cases h2 : lastIdx '}' (cleanText raw) with
    | none => simp [specMatchBraces, h1, h2]
    | some j =>
      simp only [specMatchBraces, h1, h2]
      have hgi := firstIdx_getElem h1
      have hgj := lastIdx_getElem h2
      by_cases hij : i < j
      · exact absurd ⟨hgi, hgj⟩
          (h i (getElem?_lt_length hgi) j (getElem?_lt_length hgj) hij)
      · simp [if_neg hij]

/-- Witness for C2 at the concrete brace-free reply
`"I could not find any JSON in the image."`. -/
theorem extractJSON_noJsonFound_witness :
    extractJSON "I could not find any JSON in the image." = .error .noJsonFound :=
  extractJSON_noJsonFound "I could not find any JSON in the image." (by decide)

/-- Claim C3: `deriveStatus` returns `"complete"` exactly when both
`transactionId` and `toAccountNumber` are truthy, `"partial"` exactly
when one of the two is truthy, and `"empty"` exactly when neither is;
in particular a reply with only a transaction id is `"partial"` and a
reply with both fields null is `"empty"`. -/
theorem deriveStatus_cases :
    (∀ parsed : Json,
      (deriveStatus parsed = "complete" ↔
        truthyOpt (jget parsed "transactionId") = true ∧
        truthyOpt (jget parsed "toAccountNumber") = true) ∧
      (deriveStatus parsed = "partial" ↔
        truthyOpt (jget parsed "transactionId") ≠
        truthyOpt (jget parsed "toAccountNumber")) ∧
      (deriveStatus parsed = "empty" ↔
        truthyOpt (jget parsed "transactionId") = false ∧
        truthyOpt (jget parsed "toAccountNumber") = false)) ∧
    deriveStatus (.obj [("transactionId", .str "T1"), ("toAccountNumber", .null)]) =
      "partial" ∧
    deriveStatus (.obj [("transactionId", .null), ("toAccountNumber", .null)]) =
      "empty" := by
  refine ⟨fun parsed => ?_, by decide, by decide⟩
  cases ht : truthyOpt (jget parsed "transactionId") <;>
    cases ha : truthyOpt (jget parsed "toAccountNumber") <;>
      simp [deriveStatus, ht, ha]

/-- Claim C4: the normalized confidence score is the parsed
`confidenceScore` clamped to [0, 100] when that field is a number
(no rounding: an in-range score is returned unchanged), and null when
it is absent or non-numeric; in particular 150 clamps to 100 and
`"high"` yields null. -/
theorem normalizeConfidence_clamp :
    (∀ parsed : Json, ∀ q : ℚ, jget parsed "confidenceScore" = some (.num q) →
      normalizeConfidence parsed = some (min 100 (max 0 q)) ∧
      ∀ c, normalizeConfidence parsed = some c →
        0 ≤ c ∧ c ≤ 100 ∧ (0 ≤ q → q ≤ 100 → c = q)) ∧
    (∀ parsed : Json, (∀ q : ℚ, jget parsed "confidenceScore" ≠ some (.num q)) →
      normalizeConfidence parsed = none) ∧
    normalizeConfidence (.obj [("confidenceScore", .num 150)]) = some 100 ∧
    normalizeConfidence (.obj [("confidenceScore", .str "high")]) = none := by
  refine ⟨fun parsed q h => ?_, fun parsed h => ?_, by decide, by decide⟩
  · refine ⟨by simp [normalizeConfidence, h], fun c hc => ?_⟩
    rw [normalizeConfidence, h] at hc
    cases hc
    refine ⟨le_min (by norm_num) (le_max_left 0 q), min_le_left _ _, fun h0 h100 => ?_⟩
    rw [max_eq_right h0, min_eq_right h100]
  · rw [normalizeConfidence]
    cases hj : jget parsed "confidenceScore" with
    | none => rfl
    | some v =>
      cases v with
      | num q => exact absurd hj (h q)
      | null => rfl
      | bool b => rfl
      | str s => rfl
      | arr xs => rfl
      | obj kvs => rfl

/-- Claim C5: each extracted data field of a successful response
(`transactionId`, `toAccountNumber`, `rawText`) is either the truthy
value taken from the parsed model reply or JSON null; a field that is
absent, null or the empty string in the parsed reply surfaces as null
and never as an empty string.  Every 200 response's `data` sub-object
is exactly this rendering of some parsed reply. -/
theorem dataFields_null_or_truthy :
    (∀ parsed : Json, ∀ k : String,
      (jsOrNull (jget parsed k) = Json.null ∨
        ∃ v, jget parsed k = some v ∧ truthy v = true ∧ jsOrNull (jget parsed k) = v) ∧
      ((jget parsed k = none ∨ jget parsed k = some Json.null ∨
          jget parsed k = some (Json.str "")) → jsOrNull (jget parsed k) = Json.null) ∧
      jsOrNull (jget parsed k) ≠ Json.str "") ∧
    (∀ requestId reqBody procMs aiMs outcome,
      (handleParseSlip requestId reqBody procMs aiMs outcome).status = 200 →
      ∃ parsed : Json,
        jget (handleParseSlip requestId reqBody procMs aiMs outcome).body "data" =
          some (.obj [
            ("transactionId", jsOrNull (jget parsed "transactionId")),
            ("toAccountNumber", jsOrNull (jget parsed "toAccountNumber")),
            ("rawText", jsOrNull (jget parsed "rawText"))])) := by
  constructor
  · intro parsed k
    refine ⟨?_, ?_, ?_⟩
    · cases hj : jget parsed k with
      | none => left; rfl
      | some v =>
        by_cases t : truthy v
        · exact Or.inr ⟨v, rfl, t, by simp [jsOrNull, t]⟩
        · left; simp [jsOrNull, t]
    · rintro (hj | hj | hj) <;> simp [jsOrNull, hj, truthy]
    · cases hj : jget parsed k with
      | none => simp [jsOrNull]
      | some v =>
        by_cases t : truthy v
        · simp only [jsOrNull, if_pos t]
          intro e
          subst e
          simp [truthy] at t
        · simp [jsOrNull, t]
  · intro requestId reqBody procMs aiMs outcome h
    cases hp : parseSlipPhase1 reqBody with
    | missingImage => simp [handleParseSlip, hp, missingImageResp] at h
    | thrown => simp [handleParseSlip, hp, ocrFailedResp] at h
    | proceed img sizeKB =>
      cases outcome with
      | failure => simp [handleParseSlip, hp, ocrFailedResp] at h
      | reply out inTok outTok =>
        cases he : extractJSON out with
        | error e => simp [handleParseSlip, hp, he, invalidFormatResp] at h
        | ok parsed =>
          refine ⟨parsed, ?_⟩
          simp [handleParseSlip, hp, he, successResp, dataJson, jget, lookupLast]

/-- Claim C6, counterexample: the secondary server's handler
(`src/server.js`) answers a request without an image with a 400 error
response whose body carries neither a request identifier nor an elapsed
processing time — only the error message. -/
theorem legacy_error_response_lacks_requestId :
    (handleParseSlipLegacy [] ModelOutcome.failure).status = 400 ∧
    jget (handleParseSlipLegacy [] ModelOutcome.failure).body "error" =
      some (.str "Missing image") ∧
    jget (handleParseSlipLegacy [] ModelOutcome.failure).body "requestId" = none ∧
    jget (handleParseSlipLegacy [] ModelOutcome.failure).body "processTimeMs" = none :=
  ⟨rfl, rfl, rfl, rfl⟩

/-- Claim C6, amended: in the main server (`src/unnamed/part_000`),
every request that ends in an error — missing image 400, extraction
failure 500, or unhandled failure 500 — receives a body that includes
the request identifier and the elapsed processing time. -/
theorem error_responses_include_requestId (requestId : String)
    (reqBody : List (String × Json)) (procMs aiMs : Nat) (outcome : ModelOutcome)
    (h : (handleParseSlip requestId reqBody procMs aiMs outcome).status ≠ 200) :
    jget (handleParseSlip requestId reqBody procMs aiMs outcome).body "requestId" =
      some (.str requestId) ∧
    jget (handleParseSlip requestId reqBody procMs aiMs outcome).body "processTimeMs" =
      some (.num procMs) ∧
    ((handleParseSlip requestId reqBody procMs aiMs outcome).status = 400 ∨
      (handleParseSlip requestId reqBody procMs aiMs outcome).status = 500) := by
  cases hp : parseSlipPhase1 reqBody with
  | missingImage =>
    simp [handleParseSlip, hp, missingImageResp, jget, lookupLast]
  | thrown =>
    simp [handleParseSlip, hp, ocrFailedResp, jget, lookupLast]
  | proceed img sizeKB =>
    cases outcome with
    | failure => simp [handleParseSlip, hp, ocrFailedResp, jget, lookupLast]
    | reply out inTok outTok =>
      cases he : extractJSON out with
      | error e =>
        simp [handleParseSlip, hp, he, invalidFormatResp, jget, lookupLast]
      | ok parsed =>
        exact absurd (by simp [handleParseSlip, hp, he, successResp]) h

/-- Witness for the amended C6 at a concrete failing request (missing
image, requestId `"req_1"`, 5 ms elapsed). -/
theorem error_responses_include_requestId_witness :
    jget (handleParseSlip "req_1" [] 5 0 ModelOutcome.failure).body "requestId" =
      some (.str "req_1") ∧
    jget (handleParseSlip "req_1" [] 5 0 ModelOutcome.failure).body "processTimeMs" =
      some (.num 5) ∧
    ((handleParseSlip "req_1" [] 5 0 ModelOutcome.failure).status = 400 ∨
      (handleParseSlip "req_1" [] 5 0 ModelOutcome.failure).status = 500) :=
  error_responses_include_requestId "req_1" [] 5 0 ModelOutcome.failure (by decide)

/-- Claim C7: for all non-negative integer token counts,
`calcTokenCost` is `(inputTokens/1000)*0.00015 +
(outputTokens/1000)*0.0006` rounded to 6 decimal places: the result is
an integer number of millionths within half a millionth of the exact
linear cost, and 2000 input / 500 output tokens cost exactly 0.0006. -/
theorem calcTokenCost_rounds :
    (∀ i o : ℕ, calcTokenCost i o =
        jsToFixed6 (((i : ℚ) / 1000) * 0.00015 + ((o : ℚ) / 1000) * 0.0006) ∧
      (∃ n : ℕ, calcTokenCost i o = (n : ℚ) / 1000000) ∧
      |calcTokenCost i o - (((i : ℚ) / 1000) * 0.00015 + ((o : ℚ) / 1000) * 0.0006)| ≤
        1 / 2000000) ∧
    calcTokenCost 2000 500 = 0.0006 := by
  have key : ∀ q : ℚ, |jsToFixed6 q - q| ≤ 1 / 2000000 := by
    intro q
    have h1 := Int.floor_le (q * 1000000 + 1 / 2)
    have h2 := Int.lt_floor_add_one (q * 1000000 + 1 / 2)
    rw [abs_le, jsToFixed6]
    constructor <;> [linarith; linarith]
  have hconc : calcTokenCost 2000 500 = 0.0006 := by
    have hf : (⌊((2000 : ℚ) / 1000 * 0.00015 + (500 : ℚ) / 1000 * 0.0006) * 1000000 +
        1 / 2⌋ : ℤ) = 600 := by
      rw [Int.floor_eq_iff]
      norm_num
    simp only [calcTokenCost, COST_PER_1K_INPUT_TOKENS, COST_PER_1K_OUTPUT_TOKENS,
      jsToFixed6, hf]
    norm_num
  refine ⟨fun i o => ⟨rfl, ?_, ?_⟩, hconc⟩
  · have hq : (0 : ℚ) ≤ ((i : ℚ) / 1000) * 0.00015 + ((o : ℚ) / 1000) * 0.0006 := by
      have hi : (0 : ℚ) ≤ (i : ℚ) / 1000 := by positivity
      have ho : (0 : ℚ) ≤ (o : ℚ) / 1000 := by positivity
      have c1 : (0 : ℚ) ≤ (0.00015 : ℚ) := by norm_num
      have c2 : (0 : ℚ) ≤ (0.0006 : ℚ) := by norm_num
      have := add_nonneg (mul_nonneg hi c1) (mul_nonneg ho c2)
      linarith
    have hfl : (0 : ℤ) ≤
        ⌊(((i : ℚ) / 1000) * 0.00015 + ((o : ℚ) / 1000) * 0.0006) * 1000000 + 1 / 2⌋ := by
      apply Int.floor_nonneg.mpr
      have h12 : (0 : ℚ) ≤ 1 / 2 := by norm_num
      have := mul_nonneg hq (by norm_num : (0 : ℚ) ≤ 1000000)
      linarith
    refine ⟨(⌊(((i : ℚ) / 1000) * 0.00015 + ((o : ℚ) / 1000) * 0.0006) * 1000000 +
      1 / 2⌋).toNat, ?_⟩
    show jsToFixed6 (((i : ℚ) / 1000) * 0.00015 + ((o : ℚ) / 1000) * 0.0006) = _
    rw [jsToFixed6]
    congr 1
    exact_mod_cast (Int.toNat_of_nonneg hfl).symm
  · exact key _

/-- A list that does not start with `data:image/` is left unchanged by
the data-URI stripping. -/
theorem stripDataUri_of_not_pre (s : List Char)
    (h : isPre "data:image/".toList s = false) : stripDataUri s = s := by
  simp only [stripDataUri, h, Bool.false_eq_true, if_false]

/-- The data-URI prefix `data:image/png;base64,` is stripped from any
payload. -/
theorem stripDataUri_png_prefix (tail : String) :
    stripDataUri ("data:image/png;base64," ++ tail).toList = tail.toList := rfl

/-- Claim C8: `estimateImageSizeKB` strips a data-URI prefix and
returns `round(len*3/4/1024)` kilobytes for the length of the remaining
base64 text: stripping is the identity on the payload after a
`data:image/png;base64,` prefix, and a stripped base64 string of length
1368 yields 1 KB (with or without the prefix). -/
theorem estimateImageSizeKB_formula :
    (∀ s : String, estimateImageSizeKB s =
      jsRound ((((stripDataUri s.toList).length : ℚ) * 3) / 4 / 1024)) ∧
    (∀ tail : String,
      stripDataUri ("data:image/png;base64," ++ tail).toList = tail.toList) ∧
    estimateImageSizeKB (String.mk (List.replicate 1368 'A')) = 1 ∧
    estimateImageSizeKB ("data:image/png;base64," ++ String.mk (List.replicate 1368 'A')) =
      1 := by
  have hfloor : (⌊(1368 : ℚ) * 3 / 4 / 1024 + 1 / 2⌋ : ℤ) = 1 := by
    rw [Int.floor_eq_iff]
    norm_num
  refine ⟨fun s => rfl, fun tail => stripDataUri_png_prefix tail, ?_, ?_⟩
  · have hp : isPre "data:image/".toList (List.replicate 1368 'A') = false := by
      rfl
    have h1 : stripDataUri (String.mk (List.replicate 1368 'A')).toList =
        List.replicate 1368 'A' := stripDataUri_of_not_pre _ hp
    show jsRound
      (((stripDataUri (String.mk (List.replicate 1368 'A')).toList).length : ℚ) * 3 /
        4 / 1024) = 1
    rw [h1]
    simp only [List.length_replicate, jsRound]
    exact_mod_cast hfloor
  · have h1 : stripDataUri
        ("data:image/png;base64," ++ String.mk (List.replicate 1368 'A')).toList =
        (String.mk (List.replicate 1368 'A')).toList :=
      stripDataUri_png_prefix (String.mk (List.replicate 1368 'A'))
    show jsRound
      (((stripDataUri
          ("data:image/png;base64," ++ String.mk (List.replicate 1368 'A')).toList).length :
        ℚ) * 3 / 4 / 1024) = 1
    rw [h1]
    simp only [String.toList, List.length_replicate, jsRound]
    exact_mod_cast hfloor

/-- Claim C9: a POST /parse-slip request whose body has no
`base64Image` value gets HTTP 400 with error `"Missing image"`, a body
with no `data` field, and the external model is never invoked. -/
theorem missing_image_returns_400 (requestId : String)
    (reqBody : List (String × Json)) (procMs aiMs : Nat) (outcome : ModelOutcome)
    (h : lookupLast "base64Image" reqBody = none) :
    (handleParseSlip requestId reqBody procMs aiMs outcome).status = 400 ∧
    jget (handleParseSlip requestId reqBody procMs aiMs outcome).body "error" =
      some (.str "Missing image") ∧
    jget (handleParseSlip requestId reqBody procMs aiMs outcome).body "data" = none ∧
    modelInvoked reqBody = false := by
  have hp : parseSlipPhase1 reqBody = .missingImage := by
    simp [parseSlipPhase1, h]
  simp [handleParseSlip, hp, modelInvoked, missingImageResp, jget, lookupLast]

/-- Witness for C9 at the concrete empty request body. -/
theorem missing_image_returns_400_witness :
    (handleParseSlip "req_1" [] 5 0 ModelOutcome.failure).status = 400 ∧
    jget (handleParseSlip "req_1" [] 5 0 ModelOutcome.failure).body "error" =
      some (.str "Missing image") ∧
    jget (handleParseSlip "req_1" [] 5 0 ModelOutcome.failure).body "data" = none ∧
    modelInvoked [] = false :=
  missing_image_returns_400 "req_1" [] 5 0 ModelOutcome.failure rfl

/-- Claim C10: a request whose body carries `base64Image` with a falsy
value (the falsy JSON values being exactly `""`, `0`, `false` and
`null`) is handled exactly as if the field were absent: the handler
answers with the 400 missing-image response and never invokes the
external model, because presence is tested by truthiness. -/
theorem falsy_image_behaves_as_absent (requestId : String)
    (reqBody : List (String × Json)) (procMs aiMs : Nat) (outcome : ModelOutcome)
    (v : Json) (hv : lookupLast "base64Image" reqBody = some v)
    (hf : truthy v = false) :
    handleParseSlip requestId reqBody procMs aiMs outcome =
      handleParseSlip requestId (reqBody.filter fun kv => kv.1 != "base64Image")
        procMs aiMs outcome ∧
    handleParseSlip requestId reqBody procMs aiMs outcome =
      missingImageResp requestId procMs ∧
    modelInvoked reqBody = false ∧
    (∀ w : Json, truthy w = false ↔
      (w = .null ∨ w = .bool false ∨ w = .num 0 ∨ w = .str "")) := by
  have hp : parseSlipPhase1 reqBody = .missingImage := by
    simp [parseSlipPhase1, hv, hf]
  have hp2 : parseSlipPhase1 (reqBody.filter fun kv => kv.1 != "base64Image") =
      .missingImage := by
    simp [parseSlipPhase1, lookupLast_filter_self]
  refine ⟨?_, ?_, ?_, ?_⟩
  · simp [handleParseSlip, hp, hp2]
  · simp [handleParseSlip, hp]
  · simp [modelInvoked, hp]
  · intro w
    cases w with
    | null => simp [truthy]
    | bool b => cases b <;> simp [truthy]
    | num q => simp [truthy]
    | str s => simp [truthy]
    | arr xs => simp [truthy]
    | obj kvs => simp [truthy]

/-- Witness for C10 at the concrete body `{"base64Image": ""}`. -/
theorem falsy_image_behaves_as_absent_witness :
    handleParseSlip "req_1" [("base64Image", .str "")] 5 0 ModelOutcome.failure =
      handleParseSlip "req_1"
        ([("base64Image", Json.str "")].filter fun kv => kv.1 != "base64Image")
        5 0 ModelOutcome.failure ∧
    handleParseSlip "req_1" [("base64Image", .str "")] 5 0 ModelOutcome.failure =
      missingImageResp "req_1" 5 ∧
    modelInvoked [("base64Image", .str "")] = false ∧
    (∀ w : Json, truthy w = false ↔
      (w = .null ∨ w = .bool false ∨ w = .num 0 ∨ w = .str "")) :=
  falsy_image_behaves_as_absent "req_1" [("base64Image", .str "")] 5 0
    ModelOutcome.failure (.str "") rfl rfl

end OcrServer
